import Mathlib

/-!
Verification of the scoring core of the `git_reviewer` repository.

The development shallowly embeds, in Lean, the scoring algorithms of

* `core_analysis/cis_scorer.py` (contribution impact scores and the
  geek index),
* `core_analysis/enhanced_cis_scoring.py` (the enhanced CIS variant),
* `founding_engineer_review/scoring/scoring_engine.py` (the four
  category scorers, the overall score, recommendation, confidence and
  the strength/risk aggregation), and
* `founding_engineer_review/core.py` (the review pipeline entry point).

Python floats are modelled as rationals (`ℚ`) where only field
arithmetic and comparisons occur, and as reals (`ℝ`) where the code
calls `math.log` / `math.log10`.  Python lists become `List`, dicts of
fixed shape become structures, enums become inductive types.  Only the
fields that the scoring logic reads are carried by the structures;
presentation-only strings (descriptions, evidence text) are dropped,
except for the enum `value` strings that the risk sort of
`score_comprehensive_assessment` actually compares.
-/

namespace GitReviewer

/-! ## Geek index (cis_scorer.py / enhanced_cis_scoring.py)

`ContributionImpactScorer.calculate_geek_index` keeps the
contributions with `cis_score > 0`, sorts them by score descending
(`contributions.sort(key=..., reverse=True)`) and walks the sorted
list with 1-based rank `i`, setting `geek_index = i` while
`cis_score >= i` and breaking at the first failure.
`EnhancedCISCalculator.calculate_geek_index` runs the same loop on the
sorted but unfiltered list.  A contribution is represented here by its
final score. -/

/-- Insertion step of a descending sort by score; models the effect of
Python's `list.sort(key=lambda c: c.cis_score, reverse=True)`.  The
geek-index loop only reads the scores, so the order of equal elements
is irrelevant. -/
def insertDesc (s : ℚ) : List ℚ → List ℚ
  | [] => [s]
  | t :: r => if t < s then s :: t :: r else t :: insertDesc s r

/-- Descending sort by score. -/
def sortDesc : List ℚ → List ℚ
  | [] => []
  | x :: r => insertDesc x (sortDesc r)

/-- The `for i, contribution in enumerate(contributions, 1)` loop of
`calculate_geek_index`: `g` is the running `geek_index`, `i` the
1-based rank; the loop breaks at the first contribution with
`cis_score < i`. -/
def geekLoop : List ℚ → ℕ → ℕ → ℕ
  | [], _, g => g
  | s :: rest, i, g => if (i : ℚ) ≤ s then geekLoop rest (i + 1) i else g

namespace CisScorer

/-- `ContributionImpactScorer.calculate_geek_index`, applied to the
list of `cis_score`s of the analyzed contributions: contributions with
score `> 0` are kept (`if analysis and analysis.cis_score > 0`), the
rest of the pipeline is the descending sort and the rank walk. -/
def calculate_geek_index (scores : List ℚ) : ℕ :=
  geekLoop (sortDesc (scores.filter fun s => decide (0 < s))) 1 0

end CisScorer

namespace EnhancedCis

/-- `EnhancedCISCalculator.calculate_geek_index`: returns 0 on an
empty contribution list, otherwise sorts by `cis_score` descending and
runs the same rank walk (no positivity filter in this variant). -/
def calculate_geek_index (scores : List ℚ) : ℕ :=
  if scores = [] then 0 else geekLoop (sortDesc scores) 1 0

end EnhancedCis

/-- Number of scores that are at least `t`; the h-index style counting
function used to characterize the geek index. -/
def countGE (l : List ℚ) (t : ℚ) : ℕ :=
  (l.filter fun s => decide (t ≤ s)).length

/-- The value the geek index provably computes: the largest `i` such
that at least `i` contributions have score at least `i`. -/
def geekSpec (scores : List ℚ) : ℕ :=
  Nat.findGreatest (fun i => i ≤ countGE scores (i : ℚ)) scores.length

lemma insertDesc_perm (s : ℚ) (l : List ℚ) : List.Perm (insertDesc s l) (s :: l) := by
  induction l with
  | nil => rfl
  | cons t r ih =>
    by_cases h : t < s
    · simp [insertDesc, h]
    · simp only [insertDesc, h, if_false]
      exact (ih.cons t).trans (List.Perm.swap s t r)

lemma sortDesc_perm (l : List ℚ) : List.Perm (sortDesc l) l := by
  induction l with
  | nil => rfl
  | cons x r ih => exact (insertDesc_perm x (sortDesc r)).trans (ih.cons x)

lemma length_sortDesc (l : List ℚ) : (sortDesc l).length = l.length :=
  (sortDesc_perm l).length_eq

lemma insertDesc_pairwise {l : List ℚ} (s : ℚ)
    (h : l.Pairwise fun a b => b ≤ a) :
    (insertDesc s l).Pairwise fun a b => b ≤ a := by
  induction l with
  | nil => simp [insertDesc]
  | cons t r ih =>
    rw [List.pairwise_cons] at h
    obtain ⟨ht, hr⟩ := h
    by_cases hts : t < s
    · rw [insertDesc, if_pos hts, List.pairwise_cons]
      refine ⟨?_, List.pairwise_cons.2 ⟨ht, hr⟩⟩
      intro a ha
      rcases List.mem_cons.1 ha with rfl | ha
      · exact hts.le
      · exact (ht a ha).trans hts.le
    · rw [insertDesc, if_neg hts, List.pairwise_cons]
      refine ⟨?_, ih hr⟩
      intro a ha
      rcases List.mem_cons.1 ((insertDesc_perm s r).mem_iff.1 ha) with rfl | ha
      · exact not_lt.1 hts
      · exact ht a ha

lemma sortDesc_pairwise (l : List ℚ) :
    (sortDesc l).Pairwise fun a b => b ≤ a := by
  induction l with
  | nil => simp [sortDesc]
  | cons x r ih => exact insertDesc_pairwise x ih

lemma countGE_le_length (l : List ℚ) (t : ℚ) : countGE l t ≤ l.length :=
  List.length_filter_le _ l

lemma countGE_perm {l l' : List ℚ} (h : List.Perm l l') (t : ℚ) :
    countGE l t = countGE l' t :=
  (h.filter _).length_eq

lemma countGE_anti (l : List ℚ) {t t' : ℚ} (h : t ≤ t') :
    countGE l t' ≤ countGE l t := by
  induction l with
  | nil => simp [countGE]
  | cons x r ih =>
    simp only [countGE, List.filter_cons] at *
    by_cases hx : t' ≤ x
    · have hx' : t ≤ x := h.trans hx
      simp [hx, hx', Nat.succ_le_succ ih]
    · by_cases hx' : t ≤ x <;> simp [hx, hx'] <;> omega

lemma countGE_append (l : List ℚ) (s t : ℚ) :
    countGE (l ++ [s]) t = countGE l t + if t ≤ s then 1 else 0 := by
  by_cases h : t ≤ s <;> simp [countGE, List.filter_append, h]

/-- On a descending-sorted list, "at least `m` elements are `≥ t`" is
the same as "the `m`-th element (1-based) exists and is `≥ t`". -/
lemma countGE_iff_getD {l : List ℚ} (hl : l.Pairwise fun a b => b ≤ a)
    (t : ℚ) {m : ℕ} (hm : 1 ≤ m) :
    m ≤ countGE l t ↔ m ≤ l.length ∧ t ≤ l.getD (m - 1) 0 := by
  induction l generalizing m with
  | nil =>
    simp only [countGE, List.filter_nil, List.length_nil, Nat.le_zero]
    omega
  | cons a r ih =>
    rw [List.pairwise_cons] at hl
    obtain ⟨ha, hr⟩ := hl
    by_cases hat : t ≤ a
    · have hcount : countGE (a :: r) t = countGE r t + 1 := by
        simp [countGE, List.filter_cons, hat]
      rcases Nat.exists_eq_add_of_le hm with ⟨j, rfl⟩
      cases j with
      | zero =>
        simp only [hcount, List.length_cons, List.getD_cons_zero]
        constructor
        · intro _; exact ⟨by omega, hat⟩
        · intro _; omega
      | succ j' =>
        have h1j : 1 ≤ 1 + (j' + 1) := by omega
        have hstep : (1 + (j' + 1)) - 1 = (1 + j') := by omega
        have hstep' : (a :: r).getD (1 + (j' + 1) - 1) 0 = r.getD (1 + j' - 1) 0 := by
          have : (1 + (j' + 1)) - 1 = (1 + j' - 1) + 1 := by omega
          rw [this, List.getD_cons_succ]
        rw [hcount, hstep']
        have := ih hr (m := 1 + j') (by omega)
        constructor
        · intro h
          have h' : 1 + j' ≤ countGE r t := by omega
          obtain ⟨h1, h2⟩ := this.1 h'
          exact ⟨by simp only [List.length_cons]; omega, h2⟩
        · rintro ⟨h1, h2⟩
          have h1' : 1 + j' ≤ r.length := by
            simp only [List.length_cons] at h1; omega
          have := this.2 ⟨h1', h2⟩
          omega
    · have hzero : countGE (a :: r) t = 0 := by
        simp only [countGE, List.length_eq_zero, List.filter_eq_nil_iff]
        intro x hx
        rcases List.mem_cons.1 hx with rfl | hx
        · simpa using hat
        · have := (ha x hx).trans_lt (not_le.1 hat)
          simpa using not_le.2 this
      rw [hzero]
      constructor
      · intro h; omega
      · rintro ⟨h1, h2⟩
        exfalso
        have hmem : (a :: r).getD (m - 1) 0 ∈ a :: r := by
          have hlt : m - 1 < (a :: r).length := by omega
          rw [List.getD_eq_getElem _ _ hlt]
          exact List.getElem_mem _
        have hle : (a :: r).getD (m - 1) 0 ≤ a := by
          rcases List.mem_cons.1 hmem with heq | hmem'
          · rw [heq]
          · exact ha _ hmem'
        exact hat (h2.trans hle)

/-- Accumulator-free form of `geekLoop`: length of the longest prefix
whose `j`-th element (0-based) is at least the rank `i + j`. -/
def geekAux : List ℚ → ℕ → ℕ
  | [], _ => 0
  | s :: rest, i => if (i : ℚ) ≤ s then geekAux rest (i + 1) + 1 else 0

lemma geekLoop_eq (l : List ℚ) (k : ℕ) :
    geekLoop l (k + 1) k = k + geekAux l (k + 1) := by
  induction l generalizing k with
  | nil => simp [geekLoop, geekAux]
  | cons s rest ih =>
    simp only [geekLoop, geekAux]
    by_cases h : ((k + 1 : ℕ) : ℚ) ≤ s
    · rw [if_pos h, if_pos h, ih (k + 1)]
      omega
    · rw [if_neg h, if_neg h]
      omega

lemma geekAux_le_length (l : List ℚ) (k : ℕ) : geekAux l k ≤ l.length := by
  induction l generalizing k with
  | nil => simp [geekAux]
  | cons s rest ih =>
    by_cases h : ((k : ℕ) : ℚ) ≤ s
    · simp only [geekAux, if_pos h, List.length_cons]
      exact Nat.succ_le_succ (ih (k + 1))
    · simp [geekAux, if_neg h]

lemma geekAux_qualifies (l : List ℚ) (k j : ℕ) (h : j < geekAux l k) :
    ((k + j : ℕ) : ℚ) ≤ l.getD j 0 := by
  induction l generalizing k j with
  | nil => simp [geekAux] at h
  | cons s rest ih =>
    by_cases hk : ((k : ℕ) : ℚ) ≤ s
    · rw [geekAux, if_pos hk] at h
      cases j with
      | zero => simpa using hk
      | succ j' =>
        have := ih (k + 1) j' (by omega)
        rw [List.getD_cons_succ]
        convert this using 2
        omega
    · rw [geekAux, if_neg hk] at h
      omega

lemma geekAux_fails (l : List ℚ) (k : ℕ) (h : geekAux l k < l.length) :
    ¬ ((k + geekAux l k : ℕ) : ℚ) ≤ l.getD (geekAux l k) 0 := by
  induction l generalizing k with
  | nil => simp at h
  | cons s rest ih =>
    by_cases hk : ((k : ℕ) : ℚ) ≤ s
    · rw [geekAux, if_pos hk] at h ⊢
      have := ih (k + 1) (by simpa using Nat.lt_of_succ_lt_succ h)
      rw [List.getD_cons_succ]
      intro hcon
      apply this
      convert hcon using 2
      omega
    · rw [geekAux, if_neg hk]
      simpa using hk

lemma sorted_getD_anti {l : List ℚ} (hl : l.Pairwise fun a b => b ≤ a)
    {i j : ℕ} (hij : i ≤ j) (hj : j < l.length) :
    l.getD j 0 ≤ l.getD i 0 := by
  rcases Nat.eq_or_lt_of_le hij with rfl | hlt
  · exact le_refl _
  · have hi : i < l.length := hlt.trans hj
    rw [List.getD_eq_getElem _ _ hj, List.getD_eq_getElem _ _ hi]
    exact List.pairwise_iff_get.1 hl ⟨i, hi⟩ ⟨j, hj⟩ hlt

/-- The geek-index loop on the descending-sorted list computes the
largest `i` with at least `i` scores `≥ i` in the original list. -/
lemma geekCore_eq_findGreatest (l : List ℚ) :
    geekLoop (sortDesc l) 1 0 =
      Nat.findGreatest (fun i => i ≤ countGE l (i : ℚ)) l.length := by
  have hperm := sortDesc_perm l
  have hsort := sortDesc_pairwise l
  have hlen := length_sortDesc l
  have hcount : ∀ t : ℚ, countGE (sortDesc l) t = countGE l t :=
    fun t => countGE_perm hperm t
  have hloop : geekLoop (sortDesc l) 1 0 = geekAux (sortDesc l) 1 := by
    simpa using geekLoop_eq (sortDesc l) 0
  rw [hloop]
  set g := geekAux (sortDesc l) 1 with hg
  symm
  rw [Nat.findGreatest_eq_iff]
  refine ⟨?_, ?_, ?_⟩
  · rw [← hlen]
    exact geekAux_le_length _ _
  · intro hne
    have hg1 : 1 ≤ g := Nat.one_le_iff_ne_zero.2 hne
    have hq := geekAux_qualifies (sortDesc l) 1 (g - 1) (by omega)
    have hq' : ((g : ℕ) : ℚ) ≤ (sortDesc l).getD (g - 1) 0 := by
      convert hq using 2
      omega
    have hgl : g ≤ (sortDesc l).length := geekAux_le_length _ _
    have := (countGE_iff_getD hsort ((g : ℕ) : ℚ) hg1).2 ⟨hgl, hq'⟩
    rwa [hcount] at this
  · intro n hgn hnl hP
    have hn1 : 1 ≤ n := by omega
    have hPn : n ≤ countGE (sortDesc l) ((n : ℕ) : ℚ) := by
      rwa [hcount]
    obtain ⟨hnlen, hnget⟩ := (countGE_iff_getD hsort _ hn1).1 hPn
    have hglen : g < (sortDesc l).length := by omega
    have hfail := geekAux_fails (sortDesc l) 1 hglen
    have hmono : (sortDesc l).getD (n - 1) 0 ≤ (sortDesc l).getD g 0 :=
      sorted_getD_anti hsort (by omega) (by omega)
    apply hfail
    have h1 : ((1 + g : ℕ) : ℚ) ≤ ((n : ℕ) : ℚ) := by
      exact_mod_cast by omega
    exact h1.trans (hnget.trans hmono)

lemma countGE_filter_pos (scores : List ℚ) {i : ℕ} (hi : 1 ≤ i) :
    countGE (scores.filter fun s => decide (0 < s)) ((i : ℕ) : ℚ) =
      countGE scores ((i : ℕ) : ℚ) := by
  unfold countGE
  rw [List.filter_filter]
  congr 1
  apply List.filter_congr
  intro s _
  by_cases h : ((i : ℕ) : ℚ) ≤ s
  · have h0 : (0 : ℚ) < s := by
      have h1 : (1 : ℚ) ≤ ((i : ℕ) : ℚ) := by exact_mod_cast hi
      linarith
    simp [h, h0]
  · simp [h]

/-- `ContributionImpactScorer.calculate_geek_index` computes the
h-index style maximum. -/
lemma cis_geek_index_eq_geekSpec (scores : List ℚ) :
    CisScorer.calculate_geek_index scores = geekSpec scores := by
  unfold CisScorer.calculate_geek_index geekSpec
  rw [geekCore_eq_findGreatest]
  set f := scores.filter fun s => decide (0 < s) with hf
  set g := Nat.findGreatest (fun i => i ≤ countGE f (i : ℚ)) f.length with hgdef
  symm
  rw [Nat.findGreatest_eq_iff]
  have hflen : f.length ≤ scores.length := List.length_filter_le _ _
  refine ⟨?_, ?_, ?_⟩
  · exact (Nat.findGreatest_le _).trans hflen
  · intro hne
    have hg1 : 1 ≤ g := Nat.one_le_iff_ne_zero.2 hne
    have hP : g ≤ countGE f ((g : ℕ) : ℚ) :=
      (Nat.findGreatest_eq_iff.1 hgdef.symm).2.1 hne
    rwa [countGE_filter_pos scores hg1] at hP
  · intro n hgn hnl hP
    have hn1 : 1 ≤ n := by omega
    rw [← countGE_filter_pos scores hn1] at hP
    have hnf : n ≤ f.length := hP.trans (countGE_le_length _ _)
    exact Nat.findGreatest_is_greatest hgn hnf hP

/-- The enhanced calculator computes the same value (the positivity
filter is immaterial because rank 1 already requires a score `≥ 1`). -/
lemma enhanced_geek_index_eq_geekSpec (scores : List ℚ) :
    EnhancedCis.calculate_geek_index scores = geekSpec scores := by
  unfold EnhancedCis.calculate_geek_index
  by_cases h : scores = []
  · subst h
    simp [geekSpec, countGE]
  · rw [if_neg h]
    exact geekCore_eq_findGreatest scores

lemma geekSpec_le_length (scores : List ℚ) : geekSpec scores ≤ scores.length :=
  Nat.findGreatest_le _

lemma le_geekSpec {scores : List ℚ} {n : ℕ}
    (h : n ≤ countGE scores ((n : ℕ) : ℚ)) : n ≤ geekSpec scores :=
  Nat.le_findGreatest (h.trans (countGE_le_length _ _)) h

lemma geekSpec_qualifies (scores : List ℚ) (h : geekSpec scores ≠ 0) :
    geekSpec scores ≤ countGE scores ((geekSpec scores : ℕ) : ℚ) :=
  (Nat.findGreatest_eq_iff.1 rfl).2.1 h

lemma not_le_countGE_of_geekSpec_lt {scores : List ℚ} {n : ℕ}
    (h : geekSpec scores < n) : ¬ n ≤ countGE scores ((n : ℕ) : ℚ) := by
  intro hP
  exact Nat.findGreatest_is_greatest h (hP.trans (countGE_le_length _ _)) hP

lemma geekSpec_append_le (scores : List ℚ) (s : ℚ) :
    geekSpec scores ≤ geekSpec (scores ++ [s]) := by
  rcases Nat.eq_zero_or_pos (geekSpec scores) with h0 | hpos
  · omega
  · apply le_geekSpec
    have h1 := geekSpec_qualifies scores (by omega)
    rw [countGE_append]
    split <;> omega

lemma geekSpec_append_le_succ (scores : List ℚ) (s : ℚ) :
    geekSpec (scores ++ [s]) ≤ geekSpec scores + 1 := by
  by_contra hcon
  set g := geekSpec scores with hg
  set g' := geekSpec (scores ++ [s]) with hg'
  have hgg : g + 2 ≤ g' := by omega
  have hq : g' ≤ countGE (scores ++ [s]) ((g' : ℕ) : ℚ) :=
    geekSpec_qualifies _ (by omega)
  rw [countGE_append] at hq
  have hanti : countGE scores ((g' : ℕ) : ℚ) ≤ countGE scores (((g + 1 : ℕ) : ℕ) : ℚ) := by
    apply countGE_anti
    exact_mod_cast by omega
  have : g + 1 ≤ countGE scores (((g + 1 : ℕ) : ℕ) : ℚ) := by
    split at hq <;> omega
  have := le_geekSpec this
  omega

lemma geekSpec_append_zero (scores : List ℚ) :
    geekSpec (scores ++ [0]) = geekSpec scores := by
  apply Nat.le_antisymm
  · rcases Nat.eq_zero_or_pos (geekSpec (scores ++ [0])) with h0 | hpos
    · omega
    · apply le_geekSpec
      have hq := geekSpec_qualifies (scores ++ [0]) (by omega)
      rw [countGE_append] at hq
      have hneg : ¬ ((geekSpec (scores ++ [0]) : ℚ) ≤ 0) := by
        push_neg
        exact_mod_cast hpos
      rw [if_neg hneg] at hq
      omega
  · exact geekSpec_append_le scores 0

lemma geekSpec_append_succ (scores : List ℚ) (s : ℚ)
    (h1 : ((geekSpec scores : ℕ) : ℚ) + 1 ≤ s)
    (h2 : geekSpec scores ≤ countGE scores (((geekSpec scores + 1 : ℕ) : ℕ) : ℚ)) :
    geekSpec (scores ++ [s]) = geekSpec scores + 1 := by
  apply Nat.le_antisymm
  · exact geekSpec_append_le_succ scores s
  · apply le_geekSpec
    rw [countGE_append]
    have hcond : ((geekSpec scores + 1 : ℕ) : ℚ) ≤ s := by
      push_cast
      linarith
    rw [if_pos hcond]
    omega

/-- C1: `calculate_geek_index` discards zero-score contributions,
sorts the rest by final score descending, and returns the largest
1-based rank `i` whose `i`-th sorted score is at least `i` (0 when no
score reaches its rank, in particular when no score is `≥ 1`); the
enhanced variant computes the same value, and on the worked example
`[9.0, 7.5, 5.0, 1.0]` the geek index is 3. -/
theorem calculate_geek_index_correct (scores : List ℚ) :
    CisScorer.calculate_geek_index scores ≤
      (sortDesc (scores.filter fun s => decide (0 < s))).length ∧
    (∀ i : ℕ, 1 ≤ i →
      i ≤ (sortDesc (scores.filter fun s => decide (0 < s))).length →
      (((i : ℕ) : ℚ) ≤ (sortDesc (scores.filter fun s => decide (0 < s))).getD (i - 1) 0 ↔
        i ≤ CisScorer.calculate_geek_index scores)) ∧
    EnhancedCis.calculate_geek_index scores = CisScorer.calculate_geek_index scores ∧
    CisScorer.calculate_geek_index [9, 7.5, 5, 1] = 3 := by
  set f := scores.filter fun s => decide (0 < s) with hf
  have hloop : CisScorer.calculate_geek_index scores = geekAux (sortDesc f) 1 := by
    unfold CisScorer.calculate_geek_index
    rw [← hf]
    simpa using geekLoop_eq (sortDesc f) 0
  refine ⟨?_, ?_, ?_, ?_⟩
  · rw [hloop]
    exact geekAux_le_length _ _
  · intro i hi1 hil
    constructor
    · intro hq
      have hcount : i ≤ countGE (sortDesc f) ((i : ℕ) : ℚ) :=
        (countGE_iff_getD (sortDesc_pairwise f) _ hi1).2 ⟨hil, hq⟩
      rw [countGE_perm (sortDesc_perm f), hf, countGE_filter_pos scores hi1] at hcount
      rw [cis_geek_index_eq_geekSpec]
      exact le_geekSpec hcount
    · intro hig
      rw [hloop] at hig
      have hq := geekAux_qualifies (sortDesc f) 1 (i - 1) (by omega)
      have : 1 + (i - 1) = i := by omega
      rwa [this] at hq
  · rw [enhanced_geek_index_eq_geekSpec, cis_geek_index_eq_geekSpec]
  · norm_num [CisScorer.calculate_geek_index, sortDesc, insertDesc, geekLoop,
      List.filter]

/-- Witness for C1 at concrete inputs: for the scores `[9, 7, 5, 1]`
rank 3 qualifies and rank 4 does not. -/
theorem calculate_geek_index_correct_witness :
    (((3 : ℕ) : ℚ) ≤
        (sortDesc (([9, 7, 5, 1] : List ℚ).filter fun s => decide (0 < s))).getD (3 - 1) 0 ↔
      3 ≤ CisScorer.calculate_geek_index [9, 7, 5, 1]) ∧
    (((4 : ℕ) : ℚ) ≤
        (sortDesc (([9, 7, 5, 1] : List ℚ).filter fun s => decide (0 < s))).getD (4 - 1) 0 ↔
      4 ≤ CisScorer.calculate_geek_index [9, 7, 5, 1]) :=
  ⟨(calculate_geek_index_correct [9, 7, 5, 1]).2.1 3 (by decide) (by decide),
   (calculate_geek_index_correct [9, 7, 5, 1]).2.1 4 (by decide) (by decide)⟩

/-- C7 counterexample: for the single contribution `[1]` the geek
index is 1, the appended score `2` satisfies `finalScore ≥ g + 1`, yet
the geek index of `[1, 2]` is still 1, not 2 — appending a score
`≥ g + 1` does not always increase the index. -/
theorem geek_index_append_cex :
    CisScorer.calculate_geek_index [1] = 1 ∧
    ((CisScorer.calculate_geek_index [1] : ℚ) + 1 ≤ 2) ∧
    CisScorer.calculate_geek_index ([1] ++ [2]) ≠
      CisScorer.calculate_geek_index [1] + 1 := by
  refine ⟨by decide, ?_, by decide⟩
  have h : CisScorer.calculate_geek_index [1] = 1 := by decide
  rw [h]
  norm_num

/-- C7 (amended): appending a contribution never decreases the geek
index and increases it by at most 1; appending one with
`finalScore = 0` never changes it; appending one with
`finalScore ≥ g + 1` yields exactly `g + 1` when additionally at least
`g` existing contributions score at least `g + 1`. -/
theorem geek_index_monotonicity (scores : List ℚ) (s : ℚ) :
    CisScorer.calculate_geek_index scores ≤
      CisScorer.calculate_geek_index (scores ++ [s]) ∧
    CisScorer.calculate_geek_index (scores ++ [s]) ≤
      CisScorer.calculate_geek_index scores + 1 ∧
    (s = 0 → CisScorer.calculate_geek_index (scores ++ [s]) =
      CisScorer.calculate_geek_index scores) ∧
    (((CisScorer.calculate_geek_index scores : ℚ) + 1 ≤ s) →
      (CisScorer.calculate_geek_index scores ≤
        countGE scores (((CisScorer.calculate_geek_index scores + 1 : ℕ) : ℕ) : ℚ)) →
      CisScorer.calculate_geek_index (scores ++ [s]) =
        CisScorer.calculate_geek_index scores + 1) := by
  rw [cis_geek_index_eq_geekSpec, cis_geek_index_eq_geekSpec]
  refine ⟨geekSpec_append_le scores s, geekSpec_append_le_succ scores s, ?_, ?_⟩
  · rintro rfl
    exact geekSpec_append_zero scores
  · intro h1 h2
    exact geekSpec_append_succ scores s h1 h2

/-- Witness for C7 at concrete inputs: appending `0` to `[1]` keeps
the index at 1, and appending `3` to `[3, 3]` (where both existing
scores are `≥ 3 = g + 1`) raises it from 2 to 3. -/
theorem geek_index_monotonicity_witness :
    CisScorer.calculate_geek_index ([1] ++ [0]) =
      CisScorer.calculate_geek_index [1] ∧
    CisScorer.calculate_geek_index ([3, 3] ++ [3]) =
      CisScorer.calculate_geek_index [3, 3] + 1 :=
  ⟨(geek_index_monotonicity [1] 0).2.2.1 rfl,
   (geek_index_monotonicity [3, 3] 3).2.2.2
     (by norm_num [CisScorer.calculate_geek_index, sortDesc, insertDesc, geekLoop,
        List.filter])
     (by norm_num [CisScorer.calculate_geek_index, sortDesc, insertDesc, geekLoop,
        countGE, List.filter])⟩

/-! ## Contribution scoring formulas

`ContributionImpactScorer` (cis_scorer.py) and `EnhancedCISCalculator`
(enhanced_cis_scoring.py) compute a final CIS score as
`substance * quality * community * initiative`; `math.log` and
`math.log10` are modelled by `Real.log` and `Real.logb 10`. -/

namespace CisScorer

/-- The `lines_by_type` dict filled by `classify_file_changes`
(`code`, `config`, `doc`, `excluded` meaningful-line counts). -/
structure LinesByType where
  code : ℕ
  config : ℕ
  doc : ℕ
  excluded : ℕ

/-- The local `weighted_lines` of `calculate_substance_score`:
`code*1.0 + config*0.5 + doc*0.2` (excluded lines contribute 0). -/
noncomputable def weighted_lines (lb : LinesByType) : ℝ :=
  (lb.code : ℝ) * 1.0 + (lb.config : ℝ) * 0.5 + (lb.doc : ℝ) * 0.2

/-- `complexity_factor = 1 + (0.1 * len(complexity_keywords))`. -/
noncomputable def complexity_factor (numKeywords : ℕ) : ℝ :=
  1 + 0.1 * (numKeywords : ℝ)

/-- `ContributionImpactScorer.calculate_substance_score`:
`log(weighted_lines * complexity_factor + 1)`. -/
noncomputable def calculate_substance_score (lb : LinesByType) (numKeywords : ℕ) : ℝ :=
  Real.log (weighted_lines lb * complexity_factor numKeywords + 1)

/-- `ContributionImpactScorer.calculate_quality_multiplier`. -/
noncomputable def calculate_quality_multiplier (testFilesTouched : Bool) : ℝ :=
  if testFilesTouched then 1.5 else 1.0

/-- `ContributionImpactScorer.calculate_community_multiplier`:
`1 + log10(repo_stars + 1) + log(substantive_comments + 1)`. -/
noncomputable def calculate_community_multiplier (repoStars substantiveComments : ℕ) : ℝ :=
  1 + Real.logb 10 ((repoStars : ℝ) + 1) + Real.log ((substantiveComments : ℝ) + 1)

/-- `ContributionImpactScorer.calculate_initiative_multiplier`. -/
noncomputable def calculate_initiative_multiplier (isSelfDirected : Bool) : ℝ :=
  if isSelfDirected then 2.0 else 1.0

/-- The `cis_score` computed in `analyze_pr_contribution`:
`substance_score * quality_multiplier * community_multiplier *
initiative_multiplier`. -/
noncomputable def cis_score (lb : LinesByType) (numKeywords : ℕ) (testFilesTouched : Bool)
    (repoStars substantiveComments : ℕ) (isSelfDirected : Bool) : ℝ :=
  calculate_substance_score lb numKeywords *
    calculate_quality_multiplier testFilesTouched *
    calculate_community_multiplier repoStars substantiveComments *
    calculate_initiative_multiplier isSelfDirected

lemma weighted_lines_nonneg (lb : LinesByType) : 0 ≤ weighted_lines lb := by
  unfold weighted_lines
  positivity

lemma one_le_complexity_factor (n : ℕ) : 1 ≤ complexity_factor n := by
  unfold complexity_factor
  have : (0 : ℝ) ≤ 0.1 * (n : ℝ) := by positivity
  linarith

lemma substance_nonneg (lb : LinesByType) (n : ℕ) :
    0 ≤ calculate_substance_score lb n := by
  unfold calculate_substance_score
  apply Real.log_nonneg
  nlinarith [weighted_lines_nonneg lb, one_le_complexity_factor n]

lemma substance_eq_zero_iff (lb : LinesByType) (n : ℕ) :
    calculate_substance_score lb n = 0 ↔ weighted_lines lb = 0 := by
  unfold calculate_substance_score
  have hwl := weighted_lines_nonneg lb
  have hcf := one_le_complexity_factor n
  have harg : 0 ≤ weighted_lines lb * complexity_factor n := by nlinarith
  rw [Real.log_eq_zero]
  constructor
  · rintro (h | h | h)
    · nlinarith
    · have : weighted_lines lb * complexity_factor n = 0 := by linarith
      rcases mul_eq_zero.1 this with h' | h'
      · exact h'
      · nlinarith
    · nlinarith
  · intro h
    rw [h, zero_mul, zero_add]
    norm_num

lemma one_le_quality (t : Bool) : 1 ≤ calculate_quality_multiplier t := by
  unfold calculate_quality_multiplier
  split <;> norm_num

lemma one_le_community (stars comments : ℕ) :
    1 ≤ calculate_community_multiplier stars comments := by
  unfold calculate_community_multiplier
  have h1 : 0 ≤ Real.logb 10 ((stars : ℝ) + 1) := by
    apply Real.logb_nonneg (by norm_num)
    have : (0 : ℝ) ≤ (stars : ℝ) := Nat.cast_nonneg stars
    linarith
  have h2 : 0 ≤ Real.log ((comments : ℝ) + 1) := by
    apply Real.log_nonneg
    have : (0 : ℝ) ≤ (comments : ℝ) := Nat.cast_nonneg comments
    linarith
  linarith

lemma one_le_initiative (sd : Bool) : 1 ≤ calculate_initiative_multiplier sd := by
  unfold calculate_initiative_multiplier
  split <;> norm_num

end CisScorer

namespace EnhancedCis

/-- `EnhancedCISCalculator._calculate_substance_score` after the file
walk: `log(weighted_lines * complexity_factor + 1)` with
`weighted_lines = code*1.0 + config*0.5 + doc*0.2` and
`complexity_factor = 1 + 0.1 * unique_keywords`. -/
noncomputable def calculate_substance_score (codeLines configLines docLines uniqueKeywords : ℕ) : ℝ :=
  Real.log (((codeLines : ℝ) * 1.0 + (configLines : ℝ) * 0.5 + (docLines : ℝ) * 0.2) *
    (1 + 0.1 * (uniqueKeywords : ℝ)) + 1)

/-- `EnhancedCISCalculator._calculate_quality_multiplier`:
`min((1 + log(comments+1)*0.1) * (1 + log(reactions+1)*0.05), 3.0)`. -/
noncomputable def calculate_quality_multiplier (commentsCount reactionsCount : ℕ) : ℝ :=
  min ((1 + Real.log ((commentsCount : ℝ) + 1) * 0.1) *
    (1 + Real.log ((reactionsCount : ℝ) + 1) * 0.05)) 3.0

/-- `EnhancedCISCalculator._calculate_community_multiplier`:
`min(1 + (log(stars+1) + log(forks+1)) / 10, 5.0)`. -/
noncomputable def calculate_community_multiplier (repoStars repoForks : ℕ) : ℝ :=
  min (1 + (Real.log ((repoStars : ℝ) + 1) + Real.log ((repoForks : ℝ) + 1)) / 10) 5.0

/-- `EnhancedCISCalculator._calculate_initiative_multiplier`. -/
noncomputable def calculate_initiative_multiplier (isSelfDirected : Bool) : ℝ :=
  if isSelfDirected then 2.0 else 1.0

/-- `EnhancedCISCalculator.calculate_cis_score`'s final score:
`substance_score * quality_multiplier * community_multiplier *
initiative_multiplier`. -/
noncomputable def calculate_cis_score (codeLines configLines docLines uniqueKeywords
    commentsCount reactionsCount repoStars repoForks : ℕ) (isSelfDirected : Bool) : ℝ :=
  calculate_substance_score codeLines configLines docLines uniqueKeywords *
    calculate_quality_multiplier commentsCount reactionsCount *
    calculate_community_multiplier repoStars repoForks *
    calculate_initiative_multiplier isSelfDirected

lemma substance_nonneg_enh (c g d k : ℕ) : 0 ≤ calculate_substance_score c g d k := by
  unfold calculate_substance_score
  apply Real.log_nonneg
  have h1 : (0 : ℝ) ≤ (c : ℝ) := Nat.cast_nonneg c
  have h2 : (0 : ℝ) ≤ (g : ℝ) := Nat.cast_nonneg g
  have h3 : (0 : ℝ) ≤ (d : ℝ) := Nat.cast_nonneg d
  have h4 : (0 : ℝ) ≤ (k : ℝ) := Nat.cast_nonneg k
  nlinarith

lemma substance_eq_zero_iff_enh (c g d k : ℕ) :
    calculate_substance_score c g d k = 0 ↔
      (c : ℝ) * 1.0 + (g : ℝ) * 0.5 + (d : ℝ) * 0.2 = 0 := by
  unfold calculate_substance_score
  have h1 : (0 : ℝ) ≤ (c : ℝ) := Nat.cast_nonneg c
  have h2 : (0 : ℝ) ≤ (g : ℝ) := Nat.cast_nonneg g
  have h3 : (0 : ℝ) ≤ (d : ℝ) := Nat.cast_nonneg d
  have h4 : (0 : ℝ) ≤ (k : ℝ) := Nat.cast_nonneg k
  rw [Real.log_eq_zero]
  constructor
  · rintro (h | h | h)
    · nlinarith
    · have hmul : ((c : ℝ) * 1.0 + (g : ℝ) * 0.5 + (d : ℝ) * 0.2) *
          (1 + 0.1 * (k : ℝ)) = 0 := by linarith
      rcases mul_eq_zero.1 hmul with h' | h'
      · exact h'
      · nlinarith
    · nlinarith
  · intro h
    rw [h, zero_mul, zero_add]
    norm_num

lemma one_le_quality_enh (cc rc : ℕ) : 1 ≤ calculate_quality_multiplier cc rc := by
  unfold calculate_quality_multiplier
  have h1 : 0 ≤ Real.log ((cc : ℝ) + 1) := by
    apply Real.log_nonneg
    have : (0 : ℝ) ≤ (cc : ℝ) := Nat.cast_nonneg cc
    linarith
  have h2 : 0 ≤ Real.log ((rc : ℝ) + 1) := by
    apply Real.log_nonneg
    have : (0 : ℝ) ≤ (rc : ℝ) := Nat.cast_nonneg rc
    linarith
  apply le_min
  · nlinarith
  · norm_num

lemma one_le_community_enh (st fk : ℕ) : 1 ≤ calculate_community_multiplier st fk := by
  unfold calculate_community_multiplier
  have h1 : 0 ≤ Real.log ((st : ℝ) + 1) := by
    apply Real.log_nonneg
    have : (0 : ℝ) ≤ (st : ℝ) := Nat.cast_nonneg st
    linarith
  have h2 : 0 ≤ Real.log ((fk : ℝ) + 1) := by
    apply Real.log_nonneg
    have : (0 : ℝ) ≤ (fk : ℝ) := Nat.cast_nonneg fk
    linarith
  apply le_min
  · nlinarith
  · norm_num

lemma one_le_initiative_enh (sd : Bool) : 1 ≤ calculate_initiative_multiplier sd := by
  unfold calculate_initiative_multiplier
  split <;> norm_num

end EnhancedCis

/-- C2: the final CIS score is the product
`substance * quality * community * initiative`, is never negative,
vanishes exactly when the substance score vanishes, and
`weighted_lines = 0` forces both the substance score and the final
score to 0 regardless of the multiplier inputs; this holds for both
the cis_scorer and the enhanced implementation. -/
theorem cis_score_invariants (lb : CisScorer.LinesByType) (n : ℕ) (t : Bool)
    (stars comments : ℕ) (sd : Bool)
    (c g d k cc rc st fk : ℕ) (sd' : Bool) :
    CisScorer.cis_score lb n t stars comments sd =
      CisScorer.calculate_substance_score lb n *
        CisScorer.calculate_quality_multiplier t *
        CisScorer.calculate_community_multiplier stars comments *
        CisScorer.calculate_initiative_multiplier sd ∧
    0 ≤ CisScorer.cis_score lb n t stars comments sd ∧
    (CisScorer.cis_score lb n t stars comments sd = 0 ↔
      CisScorer.calculate_substance_score lb n = 0) ∧
    (CisScorer.weighted_lines lb = 0 →
      CisScorer.calculate_substance_score lb n = 0 ∧
      CisScorer.cis_score lb n t stars comments sd = 0) ∧
    0 ≤ EnhancedCis.calculate_cis_score c g d k cc rc st fk sd' ∧
    (EnhancedCis.calculate_cis_score c g d k cc rc st fk sd' = 0 ↔
      EnhancedCis.calculate_substance_score c g d k = 0) := by
  have hs := CisScorer.substance_nonneg lb n
  have hq := CisScorer.one_le_quality t
  have hcm := CisScorer.one_le_community stars comments
  have hi := CisScorer.one_le_initiative sd
  have hs' := EnhancedCis.substance_nonneg_enh c g d k
  have hq' := EnhancedCis.one_le_quality_enh cc rc
  have hcm' := EnhancedCis.one_le_community_enh st fk
  have hi' := EnhancedCis.one_le_initiative_enh sd'
  have hprod_zero : ∀ a b c' d' : ℝ, 0 ≤ a → 1 ≤ b → 1 ≤ c' → 1 ≤ d' →
      (a * b * c' * d' = 0 ↔ a = 0) := by
    intro a b c' d' ha hb hc hd
    constructor
    · intro h
      rcases mul_eq_zero.1 h with h' | h'
      · rcases mul_eq_zero.1 h' with h'' | h''
        · rcases mul_eq_zero.1 h'' with h3 | h3
          · exact h3
          · nlinarith
        · nlinarith
      · nlinarith
    · intro h
      rw [h, zero_mul, zero_mul, zero_mul]
  have hnn : ∀ a b c' d' : ℝ, 0 ≤ a → 1 ≤ b → 1 ≤ c' → 1 ≤ d' →
      0 ≤ a * b * c' * d' := by
    intro a b c' d' ha hb hc hd
    exact mul_nonneg (mul_nonneg (mul_nonneg ha (by linarith)) (by linarith)) (by linarith)
  refine ⟨rfl, hnn _ _ _ _ hs hq hcm hi, ?_, ?_, ?_, ?_⟩
  · exact hprod_zero _ _ _ _ hs hq hcm hi
  · intro hwl
    have h0 : CisScorer.calculate_substance_score lb n = 0 :=
      (CisScorer.substance_eq_zero_iff lb n).2 hwl
    exact ⟨h0, (hprod_zero _ _ _ _ hs hq hcm hi).2 h0⟩
  · exact hnn _ _ _ _ hs' hq' hcm' hi'
  · exact hprod_zero _ _ _ _ hs' hq' hcm' hi'

lemma mul4_mono_first {a a' b c d : ℝ} (h : a ≤ a')
    (hb : 0 ≤ b) (hc : 0 ≤ c) (hd : 0 ≤ d) :
    a * b * c * d ≤ a' * b * c * d :=
  mul_le_mul_of_nonneg_right
    (mul_le_mul_of_nonneg_right (mul_le_mul_of_nonneg_right h hb) hc) hd

lemma mul4_mono_second {a b b' c d : ℝ} (h : b ≤ b')
    (ha : 0 ≤ a) (hc : 0 ≤ c) (hd : 0 ≤ d) :
    a * b * c * d ≤ a * b' * c * d :=
  mul_le_mul_of_nonneg_right
    (mul_le_mul_of_nonneg_right (mul_le_mul_of_nonneg_left h ha) hc) hd

lemma mul4_mono_third {a b c c' d : ℝ} (h : c ≤ c')
    (hab : 0 ≤ a * b) (hd : 0 ≤ d) :
    a * b * c * d ≤ a * b * c' * d :=
  mul_le_mul_of_nonneg_right (mul_le_mul_of_nonneg_left h hab) hd

namespace CisScorer

lemma substance_mono_code {c c' cfg d ex : ℕ} (n : ℕ) (h : c ≤ c') :
    calculate_substance_score ⟨c, cfg, d, ex⟩ n ≤
      calculate_substance_score ⟨c', cfg, d, ex⟩ n := by
  unfold calculate_substance_score
  apply Real.log_le_log
  · have h1 := weighted_lines_nonneg (⟨c, cfg, d, ex⟩ : LinesByType)
    have h2 := one_le_complexity_factor n
    nlinarith
  · have hwl : weighted_lines ⟨c, cfg, d, ex⟩ ≤ weighted_lines ⟨c', cfg, d, ex⟩ := by
      unfold weighted_lines
      have : (c : ℝ) ≤ (c' : ℝ) := Nat.cast_le.2 h
      simp only
      nlinarith
    have hcf : 0 ≤ complexity_factor n := by
      have := one_le_complexity_factor n
      linarith
    nlinarith

lemma community_mono_stars {st st' : ℕ} (cm : ℕ) (h : st ≤ st') :
    calculate_community_multiplier st cm ≤ calculate_community_multiplier st' cm := by
  unfold calculate_community_multiplier
  have hx : (0 : ℝ) < (st : ℝ) + 1 := by positivity
  have hy : (0 : ℝ) < (st' : ℝ) + 1 := by positivity
  have hle : ((st : ℝ) + 1) ≤ ((st' : ℝ) + 1) := by
    have : (st : ℝ) ≤ (st' : ℝ) := Nat.cast_le.2 h
    linarith
  have := (Real.logb_le_logb (by norm_num : (1:ℝ) < 10) hx hy).2 hle
  linarith

lemma community_mono_comments {cm cm' : ℕ} (st : ℕ) (h : cm ≤ cm') :
    calculate_community_multiplier st cm ≤ calculate_community_multiplier st cm' := by
  unfold calculate_community_multiplier
  have hle : ((cm : ℝ) + 1) ≤ ((cm' : ℝ) + 1) := by
    have : (cm : ℝ) ≤ (cm' : ℝ) := Nat.cast_le.2 h
    linarith
  have := Real.log_le_log (by positivity) hle
  linarith

end CisScorer

namespace EnhancedCis

lemma substance_mono_code_enh {c c' : ℕ} (g d k : ℕ) (h : c ≤ c') :
    calculate_substance_score c g d k ≤ calculate_substance_score c' g d k := by
  unfold calculate_substance_score
  have h1 : (0 : ℝ) ≤ (c : ℝ) := Nat.cast_nonneg c
  have h2 : (0 : ℝ) ≤ (g : ℝ) := Nat.cast_nonneg g
  have h3 : (0 : ℝ) ≤ (d : ℝ) := Nat.cast_nonneg d
  have h4 : (0 : ℝ) ≤ (k : ℝ) := Nat.cast_nonneg k
  have hcc : (c : ℝ) ≤ (c' : ℝ) := Nat.cast_le.2 h
  apply Real.log_le_log
  · nlinarith
  · nlinarith

lemma quality_mono_comments {cc cc' : ℕ} (rc : ℕ) (h : cc ≤ cc') :
    calculate_quality_multiplier cc rc ≤ calculate_quality_multiplier cc' rc := by
  unfold calculate_quality_multiplier
  apply min_le_min _ le_rfl
  have hlog : Real.log ((cc : ℝ) + 1) ≤ Real.log ((cc' : ℝ) + 1) := by
    apply Real.log_le_log (by positivity)
    have : (cc : ℝ) ≤ (cc' : ℝ) := Nat.cast_le.2 h
    linarith
  have hr : 0 ≤ Real.log ((rc : ℝ) + 1) := by
    apply Real.log_nonneg
    have : (0 : ℝ) ≤ (rc : ℝ) := Nat.cast_nonneg rc
    linarith
  nlinarith [Real.log_nonneg (show (1:ℝ) ≤ (cc : ℝ) + 1 by
    have : (0 : ℝ) ≤ (cc : ℝ) := Nat.cast_nonneg cc
    linarith)]

lemma community_mono_stars_enh {st st' : ℕ} (fk : ℕ) (h : st ≤ st') :
    calculate_community_multiplier st fk ≤ calculate_community_multiplier st' fk := by
  unfold calculate_community_multiplier
  apply min_le_min _ le_rfl
  have hlog : Real.log ((st : ℝ) + 1) ≤ Real.log ((st' : ℝ) + 1) := by
    apply Real.log_le_log (by positivity)
    have : (st : ℝ) ≤ (st' : ℝ) := Nat.cast_le.2 h
    linarith
  linarith

end EnhancedCis

/-- C8: holding all other inputs fixed, the final CIS score is
monotonically non-decreasing in the number of code lines, in
`repo_stars` and in `substantive_comments`, in both the cis_scorer
implementation (where comments enter the community multiplier) and
the enhanced implementation (where comments enter the quality
multiplier). -/
theorem cis_score_monotone (c c' cfg d ex n : ℕ) (t : Bool)
    (st st' cm cm' : ℕ) (sd : Bool) (g _k rc fk : ℕ) :
    (c ≤ c' → CisScorer.cis_score ⟨c, cfg, d, ex⟩ n t st cm sd ≤
      CisScorer.cis_score ⟨c', cfg, d, ex⟩ n t st cm sd) ∧
    (st ≤ st' → CisScorer.cis_score ⟨c, cfg, d, ex⟩ n t st cm sd ≤
      CisScorer.cis_score ⟨c, cfg, d, ex⟩ n t st' cm sd) ∧
    (cm ≤ cm' → CisScorer.cis_score ⟨c, cfg, d, ex⟩ n t st cm sd ≤
      CisScorer.cis_score ⟨c, cfg, d, ex⟩ n t st cm' sd) ∧
    (c ≤ c' → EnhancedCis.calculate_cis_score c g d n cm rc st fk sd ≤
      EnhancedCis.calculate_cis_score c' g d n cm rc st fk sd) ∧
    (st ≤ st' → EnhancedCis.calculate_cis_score c g d n cm rc st fk sd ≤
      EnhancedCis.calculate_cis_score c g d n cm rc st' fk sd) ∧
    (cm ≤ cm' → EnhancedCis.calculate_cis_score c g d n cm rc st fk sd ≤
      EnhancedCis.calculate_cis_score c g d n cm' rc st fk sd) := by
  have hs0 : (0:ℝ) ≤ CisScorer.calculate_substance_score ⟨c, cfg, d, ex⟩ n :=
    CisScorer.substance_nonneg _ _
  have hq0 : (0:ℝ) ≤ CisScorer.calculate_quality_multiplier t := by
    have := CisScorer.one_le_quality t
    linarith
  have hcm0 : ∀ a b : ℕ, (0:ℝ) ≤ CisScorer.calculate_community_multiplier a b := by
    intro a b
    have := CisScorer.one_le_community a b
    linarith
  have hi0 : (0:ℝ) ≤ CisScorer.calculate_initiative_multiplier sd := by
    have := CisScorer.one_le_initiative sd
    linarith
  have hs0' : ∀ a : ℕ, (0:ℝ) ≤ EnhancedCis.calculate_substance_score a g d n :=
    fun a => EnhancedCis.substance_nonneg_enh _ _ _ _
  have hq0' : ∀ a : ℕ, (0:ℝ) ≤ EnhancedCis.calculate_quality_multiplier a rc := by
    intro a
    have := EnhancedCis.one_le_quality_enh a rc
    linarith
  have hcm0' : ∀ a : ℕ, (0:ℝ) ≤ EnhancedCis.calculate_community_multiplier a fk := by
    intro a
    have := EnhancedCis.one_le_community_enh a fk
    linarith
  have hi0' : (0:ℝ) ≤ EnhancedCis.calculate_initiative_multiplier sd := by
    have := EnhancedCis.one_le_initiative_enh sd
    linarith
  refine ⟨?_, ?_, ?_, ?_, ?_, ?_⟩
  · intro h
    exact mul4_mono_first (CisScorer.substance_mono_code n h) hq0 (hcm0 st cm) hi0
  · intro h
    exact mul4_mono_third (CisScorer.community_mono_stars cm h)
      (mul_nonneg hs0 hq0) hi0
  · intro h
    exact mul4_mono_third (CisScorer.community_mono_comments st h)
      (mul_nonneg hs0 hq0) hi0
  · intro h
    exact mul4_mono_first (EnhancedCis.substance_mono_code_enh g d n h)
      (hq0' cm) (hcm0' st) hi0'
  · intro h
    exact mul4_mono_third (EnhancedCis.community_mono_stars_enh fk h)
      (mul_nonneg (hs0' c) (hq0' cm)) hi0'
  · intro h
    exact mul4_mono_second (EnhancedCis.quality_mono_comments rc h)
      (hs0' c) (hcm0' st) hi0'

/-- Witness for C8 at concrete inputs: increasing code lines from 0 to
5, stars from 0 to 10 and comments from 0 to 3 never lowers the score. -/
theorem cis_score_monotone_witness :
    CisScorer.cis_score ⟨0, 1, 1, 0⟩ 2 true 4 0 false ≤
      CisScorer.cis_score ⟨5, 1, 1, 0⟩ 2 true 4 0 false ∧
    CisScorer.cis_score ⟨0, 1, 1, 0⟩ 2 true 0 0 false ≤
      CisScorer.cis_score ⟨0, 1, 1, 0⟩ 2 true 10 0 false ∧
    EnhancedCis.calculate_cis_score 0 1 1 2 0 7 4 6 false ≤
      EnhancedCis.calculate_cis_score 0 1 1 2 3 7 4 6 false :=
  ⟨(cis_score_monotone 0 5 1 1 0 2 true 4 4 0 0 false 1 0 0 0).1 (by norm_num),
   (cis_score_monotone 0 5 1 1 0 2 true 0 10 0 0 false 1 0 0 0).2.1 (by norm_num),
   (cis_score_monotone 0 5 1 1 0 2 true 4 4 0 3 false 1 0 7 6).2.2.2.2.2 (by norm_num)⟩

/-! ## Founding engineer scoring engine
(founding_engineer_review/scoring/scoring_engine.py and core.py)

Enums keep their Python `value` strings where the code reads them
(the risk sort key compares `severity.value`).  Strength and risk
records carry the fields the scoring logic uses: severity and
confidence; lists and dicts that are only measured by the scorers are
modelled by their counts/sums. -/

namespace Scoring

/-- `RiskLevel` enum of models/assessment.py. -/
inductive RiskLevel where
  | low
  | medium
  | high
  | critical
deriving DecidableEq, Repr

/-- The Python enum's `.value` string, as compared by the risk sort in
`score_comprehensive_assessment`. -/
def RiskLevel.value : RiskLevel → String
  | .low => "Low"
  | .medium => "Medium"
  | .high => "High"
  | .critical => "Critical"

/-- `RecommendationLevel` enum of models/metrics.py. -/
inductive RecommendationLevel where
  | stronglyRecommended
  | recommended
  | conditional
  | notRecommended
  | insufficientData
deriving DecidableEq, Repr

/-- `WorkRhythmPattern` enum of models/metrics.py. -/
inductive WorkRhythmPattern where
  | weekendWarrior
  | nightOwl
  | nineToFive
  | earlyBird
  | irregular
  | unknown
deriving DecidableEq, Repr

/-- A `RiskFactor` as consumed by the scoring logic: only `severity`
and `confidence` influence the recommendation and the aggregation
order. -/
structure RiskFactor where
  severity : RiskLevel
  confidence : ℚ
deriving DecidableEq, Repr

/-- A `Strength` as consumed by the aggregation: only `confidence`
influences the order. -/
structure Strength where
  confidence : ℚ
deriving DecidableEq, Repr

/-- `TechnicalProficiencyMetrics`, reduced to what
`score_technical_proficiency` reads: `len(ai_ml_frameworks)`,
`sum(performance_languages.values())`, `len(full_stack_evidence)` and
`dependency_sophistication_score`. -/
structure TechnicalProficiencyMetrics where
  aiMlFrameworksCount : ℕ
  performanceLinesTotal : ℕ
  fullStackEvidenceCount : ℕ
  dependencySophisticationScore : ℚ

/-- `EngineeringCraftsmanshipMetrics` fields read by the scorer. -/
structure EngineeringCraftsmanshipMetrics where
  commitIssueLinkingRatio : ℚ
  testingCommitmentRatio : ℚ
  structuredWorkflowScore : ℚ
  codeReviewThoroughness : ℚ

/-- `InitiativeOwnershipMetrics` fields read by the scorer. -/
structure InitiativeOwnershipMetrics where
  selfDirectedWorkCycles : ℕ
  firstResponderInstances : ℕ
  personalProjectQuality : ℚ
  openSourceContributions : ℕ

/-- `CollaborationStyleMetrics` fields read by the scorer
(`len(mentorship_indicators)` becomes a count). -/
structure CollaborationStyleMetrics where
  temporalDedicationScore : ℚ
  workRhythmPattern : WorkRhythmPattern
  feedbackReceptivenessScore : ℚ
  communicationClarityScore : ℚ
  mentorshipIndicatorsCount : ℕ

/-- AI/ML framework tier of `score_technical_proficiency` (40% of the
category). -/
def tech_ai_component (aiCount : ℕ) : ℚ :=
  if 5 ≤ aiCount then 40 else if 3 ≤ aiCount then 30 else if 1 ≤ aiCount then 20 else 0

/-- Performance-language tier of `score_technical_proficiency` (25%). -/
def tech_perf_component (perfLines : ℕ) : ℚ :=
  if 2000 ≤ perfLines then 25 else if 500 ≤ perfLines then 15
  else if 100 ≤ perfLines then 10 else 0

/-- Full-stack tier of `score_technical_proficiency` (20%). -/
def tech_fullstack_component (n : ℕ) : ℚ :=
  if 3 ≤ n then 20 else if 2 ≤ n then 15 else if 1 ≤ n then 10 else 0

/-- `FoundingEngineerScorer.score_technical_proficiency` (score part). -/
def score_technical_proficiency (m : TechnicalProficiencyMetrics) : ℚ :=
  tech_ai_component m.aiMlFrameworksCount +
    tech_perf_component m.performanceLinesTotal +
    tech_fullstack_component m.fullStackEvidenceCount +
    m.dependencySophisticationScore * 15

/-- `FoundingEngineerScorer.score_engineering_craftsmanship` (score part). -/
def score_engineering_craftsmanship (m : EngineeringCraftsmanshipMetrics) : ℚ :=
  m.commitIssueLinkingRatio * 30 + m.testingCommitmentRatio * 30 +
    m.structuredWorkflowScore * 25 + m.codeReviewThoroughness * 15

/-- Self-directed-cycles tier of `score_initiative_ownership` (40%). -/
def initiative_cycles_component (n : ℕ) : ℚ :=
  if 10 ≤ n then 40 else if 5 ≤ n then 30 else if 2 ≤ n then 20 else 0

/-- First-responder tier of `score_initiative_ownership` (20%). -/
def initiative_responder_component (n : ℕ) : ℚ :=
  if 10 ≤ n then 20 else if 5 ≤ n then 15 else if 2 ≤ n then 10 else 0

/-- Open-source tier of `score_initiative_ownership` (20%). -/
def initiative_oss_component (n : ℕ) : ℚ :=
  if 5 ≤ n then 20 else if 2 ≤ n then 15 else if 1 ≤ n then 10 else 0

/-- `FoundingEngineerScorer.score_initiative_ownership` (score part). -/
def score_initiative_ownership (m : InitiativeOwnershipMetrics) : ℚ :=
  initiative_cycles_component m.selfDirectedWorkCycles +
    initiative_responder_component m.firstResponderInstances +
    m.personalProjectQuality * 20 +
    initiative_oss_component m.openSourceContributions

/-- Work-rhythm bonus of `score_collaboration_style`: +10 for
Weekend Warrior, +5 for Night Owl, nothing otherwise. -/
def collab_pattern_bonus : WorkRhythmPattern → ℚ
  | .weekendWarrior => 10
  | .nightOwl => 5
  | _ => 0

/-- `FoundingEngineerScorer.score_collaboration_style` (score part):
`dedication*30 + pattern bonus + receptiveness*25 + clarity*20 +
(15 if any mentorship indicator)`. -/
def score_collaboration_style (m : CollaborationStyleMetrics) : ℚ :=
  m.temporalDedicationScore * 30 +
    collab_pattern_bonus m.workRhythmPattern +
    m.feedbackReceptivenessScore * 25 +
    m.communicationClarityScore * 20 +
    (if 0 < m.mentorshipIndicatorsCount then 15 else 0)

/-- Risk factors emitted by `score_technical_proficiency`. -/
def risks_technical (m : TechnicalProficiencyMetrics) : List RiskFactor :=
  if m.aiMlFrameworksCount = 0 then [⟨.high, 0.8⟩] else []

/-- Risk factors emitted by `score_engineering_craftsmanship`. -/
def risks_craftsmanship (m : EngineeringCraftsmanshipMetrics) : List RiskFactor :=
  (if m.commitIssueLinkingRatio < 0.2 then [⟨.medium, 0.7⟩] else []) ++
    (if m.testingCommitmentRatio < 0.1 then [⟨.high, 0.8⟩] else [])

/-- Risk factors emitted by `score_initiative_ownership` (the risk
branch fires only on exactly zero cycles). -/
def risks_initiative (m : InitiativeOwnershipMetrics) : List RiskFactor :=
  if m.selfDirectedWorkCycles = 0 then [⟨.high, 0.7⟩] else []

/-- Risk factors emitted by `score_collaboration_style`. -/
def risks_collaboration (m : CollaborationStyleMetrics) : List RiskFactor :=
  (if m.workRhythmPattern = .irregular then [⟨.low, 0.6⟩] else []) ++
    (if m.feedbackReceptivenessScore < 0.3 then [⟨.medium, 0.6⟩] else [])

/-- `self.category_weights` of `_init_scoring_parameters`, in dict
insertion order. -/
def category_weights : List (String × ℚ) :=
  [("technical_proficiency", 0.30), ("engineering_craftsmanship", 0.25),
   ("initiative_ownership", 0.30), ("collaboration_style", 0.15)]

/-- `FoundingEngineerScorer.calculate_overall_score`: iterate the
weight dict, look the category up in the score dict (default 0.0) and
accumulate `score * weight`. -/
def calculate_overall_score (categoryScores : List (String × ℚ)) : ℚ :=
  category_weights.foldl
    (fun acc cw => acc + ((categoryScores.lookup cw.1).getD 0) * cw.2) 0

/-- The base recommendation computed from the score thresholds inside
`determine_recommendation` (`>=80`, `>=65`, `>=45`, else). -/
def score_threshold_level (overall : ℚ) : RecommendationLevel :=
  if 80 ≤ overall then .stronglyRecommended
  else if 65 ≤ overall then .recommended
  else if 45 ≤ overall then .conditional
  else .notRecommended

/-- `len(high_risks)` with `high_risks = [rf for rf in risk_factors
if rf.severity == RiskLevel.HIGH]`. -/
def high_risk_count (risks : List RiskFactor) : ℕ :=
  (risks.filter fun r => r.severity == .high).length

/-- Truthiness of `critical_risks = [rf ... if rf.severity ==
RiskLevel.CRITICAL]`. -/
def has_critical_risk (risks : List RiskFactor) : Bool :=
  risks.any fun r => r.severity == .critical

/-- `FoundingEngineerScorer.determine_recommendation` (recommendation
part; the accompanying reasoning string is presentation only):
critical risks force Not Recommended; otherwise the thresholded base
level, downgraded one tier when there are at least three high risks —
but only from the top two tiers. -/
def determine_recommendation (overall : ℚ) (risks : List RiskFactor) :
    RecommendationLevel :=
  if has_critical_risk risks then .notRecommended
  else
    let base := score_threshold_level overall
    if 3 ≤ high_risk_count risks then
      match base with
      | .stronglyRecommended => .recommended
      | .recommended => .conditional
      | _ => base
    else base

/-- `FoundingEngineerScorer.calculate_confidence_level`: stepwise
activity confidence averaged with the data-completeness score. -/
def calculate_confidence_level (activityCount : ℕ) (dataCompleteness : ℚ) : ℚ :=
  let activityConfidence : ℚ :=
    if 100 ≤ activityCount then 1.0
    else if 50 ≤ activityCount then 0.8
    else if 20 ≤ activityCount then 0.6
    else if 10 ≤ activityCount then 0.4
    else 0.2
  (activityConfidence + dataCompleteness) / 2

/-- Python tuple comparison `(a.severity.value, a.confidence) <
(b.severity.value, b.confidence)` — the sort key of
`all_risks.sort(key=lambda r: (r.severity.value, r.confidence),
reverse=True)`.  Note the first component is the enum's STRING value,
compared lexicographically. -/
def risk_key_lt (a b : RiskFactor) : Bool :=
  decide (a.severity.value < b.severity.value) ||
    (a.severity.value == b.severity.value && decide (a.confidence < b.confidence))

/-- Insertion step of the reverse (descending-key) risk sort. -/
def insertRiskDesc (x : RiskFactor) : List RiskFactor → List RiskFactor
  | [] => [x]
  | y :: r => if risk_key_lt y x then x :: y :: r else y :: insertRiskDesc x r

/-- The risk sort of `score_comprehensive_assessment`:
`all_risks.sort(key=lambda r: (r.severity.value, r.confidence),
reverse=True)`. -/
def sort_risks : List RiskFactor → List RiskFactor
  | [] => []
  | x :: r => insertRiskDesc x (sort_risks r)

/-- Insertion step of the strength sort (key: confidence, descending). -/
def insertStrengthDesc (x : Strength) : List Strength → List Strength
  | [] => [x]
  | y :: r => if decide (y.confidence < x.confidence) then x :: y :: r
      else y :: insertStrengthDesc x r

/-- The strength sort of `score_comprehensive_assessment`:
`all_strengths.sort(key=lambda s: s.confidence, reverse=True)`. -/
def sort_strengths : List Strength → List Strength
  | [] => []
  | x :: r => insertStrengthDesc x (sort_strengths r)

/-- `FoundingEngineerMetrics` as consumed by
`score_comprehensive_assessment`. -/
structure FoundingEngineerMetrics where
  technicalProficiency : TechnicalProficiencyMetrics
  engineeringCraftsmanship : EngineeringCraftsmanshipMetrics
  initiativeOwnership : InitiativeOwnershipMetrics
  collaborationStyle : CollaborationStyleMetrics
  dataCompletenessScore : ℚ

/-- The fields of `AssessmentResult` this development reasons about. -/
structure AssessmentResult where
  overallScore : ℚ
  recommendation : RecommendationLevel
  confidenceLevel : ℚ
  criticalRisks : List RiskFactor
deriving DecidableEq, Repr

/-- `FoundingEngineerScorer.score_comprehensive_assessment`: score the
four categories, combine them through `calculate_overall_score`,
aggregate and sort the risks, derive recommendation and confidence
(`critical_risks` keeps the risks of severity Critical or High). -/
def score_comprehensive_assessment (m : FoundingEngineerMetrics)
    (activityCount : ℕ) : AssessmentResult :=
  let techScore := score_technical_proficiency m.technicalProficiency
  let craftScore := score_engineering_craftsmanship m.engineeringCraftsmanship
  let initiativeScore := score_initiative_ownership m.initiativeOwnership
  let collabScore := score_collaboration_style m.collaborationStyle
  let overall := calculate_overall_score
    [("technical_proficiency", techScore),
     ("engineering_craftsmanship", craftScore),
     ("initiative_ownership", initiativeScore),
     ("collaboration_style", collabScore)]
  let allRisks := risks_technical m.technicalProficiency ++
    risks_craftsmanship m.engineeringCraftsmanship ++
    risks_initiative m.initiativeOwnership ++
    risks_collaboration m.collaborationStyle
  let sortedRisks := sort_risks allRisks
  let recommendation := determine_recommendation overall sortedRisks
  let confidence := calculate_confidence_level activityCount m.dataCompletenessScore
  { overallScore := overall
    recommendation := recommendation
    confidenceLevel := confidence
    criticalRisks := sortedRisks.filter fun r =>
      r.severity == .critical || r.severity == .high }

/-- The slice of `ActivityData` read by
`FoundingEngineerReviewer` (`core.py`): the total count and the
truthiness of the five per-type activity lists. -/
structure ActivityData where
  totalActivities : ℕ
  hasCommits : Bool
  hasIssues : Bool
  hasPullRequests : Bool
  hasReviews : Bool
  hasComments : Bool

/-- `FoundingEngineerReviewer._calculate_data_completeness`: average
of five per-type availability factors, weighted 0.7, plus a stepwise
volume factor weighted 0.3. -/
def calculate_data_completeness (a : ActivityData) : ℚ :=
  let factors : List ℚ :=
    [if a.hasCommits then 1.0 else 0.0,
     if a.hasIssues then 1.0 else 0.5,
     if a.hasPullRequests then 1.0 else 0.3,
     if a.hasReviews then 1.0 else 0.3,
     if a.hasComments then 1.0 else 0.2]
  let volumeFactor : ℚ :=
    if 50 ≤ a.totalActivities then 1.0
    else if 20 ≤ a.totalActivities then 0.8
    else if 10 ≤ a.totalActivities then 0.6
    else 0.4
  (factors.sum / (factors.length : ℚ)) * 0.7 + volumeFactor * 0.3

/-- `FoundingEngineerReviewer.generate_comprehensive_review`, with the
out-of-scope analyzers' outputs (the four metric bundles) taken as
inputs: `raise ValueError("No GitHub activity found ...")` when
`activity_data.total_activities == 0` becomes an `Except.error`;
otherwise the metrics are assembled (with the computed
data-completeness score) and scored. -/
def generate_comprehensive_review (a : ActivityData)
    (tech : TechnicalProficiencyMetrics) (craft : EngineeringCraftsmanshipMetrics)
    (initiative : InitiativeOwnershipMetrics) (collab : CollaborationStyleMetrics) :
    Except String AssessmentResult :=
  if a.totalActivities = 0 then
    Except.error "No GitHub activity found"
  else
    Except.ok (score_comprehensive_assessment
      ⟨tech, craft, initiative, collab, calculate_data_completeness a⟩
      a.totalActivities)

end Scoring

/-- C9: the overall score is the weighted sum of the four category
scores with weights 0.30 / 0.25 / 0.30 / 0.15, and on the worked
example `{technical: 80, craftsmanship: 60, initiative: 90,
collaboration: 50}` it is exactly 73.5, which lies in the Recommended
band (the recommendation for that score with no risks is
Recommended). -/
theorem overall_score_weighted_sum (t c i cl : ℚ) :
    Scoring.calculate_overall_score
      [("technical_proficiency", t), ("engineering_craftsmanship", c),
       ("initiative_ownership", i), ("collaboration_style", cl)] =
      t * 0.30 + c * 0.25 + i * 0.30 + cl * 0.15 ∧
    Scoring.calculate_overall_score
      [("technical_proficiency", 80), ("engineering_craftsmanship", 60),
       ("initiative_ownership", 90), ("collaboration_style", 50)] = 73.5 ∧
    (65 : ℚ) ≤ 73.5 ∧ (73.5 : ℚ) < 80 ∧
    Scoring.determine_recommendation 73.5 [] = .recommended := by
  have hgen : ∀ t' c' i' cl' : ℚ,
      Scoring.calculate_overall_score
        [("technical_proficiency", t'), ("engineering_craftsmanship", c'),
         ("initiative_ownership", i'), ("collaboration_style", cl')] =
        t' * 0.30 + c' * 0.25 + i' * 0.30 + cl' * 0.15 := by
    intro t' c' i' cl'
    simp only [Scoring.calculate_overall_score, Scoring.category_weights,
      List.foldl_cons, List.foldl_nil]
    rw [show List.lookup "technical_proficiency"
        [("technical_proficiency", t'), ("engineering_craftsmanship", c'),
         ("initiative_ownership", i'), ("collaboration_style", cl')] = some t' from rfl]
    rw [show List.lookup "engineering_craftsmanship"
        [("technical_proficiency", t'), ("engineering_craftsmanship", c'),
         ("initiative_ownership", i'), ("collaboration_style", cl')] = some c' from rfl]
    rw [show List.lookup "initiative_ownership"
        [("technical_proficiency", t'), ("engineering_craftsmanship", c'),
         ("initiative_ownership", i'), ("collaboration_style", cl')] = some i' from rfl]
    rw [show List.lookup "collaboration_style"
        [("technical_proficiency", t'), ("engineering_craftsmanship", c'),
         ("initiative_ownership", i'), ("collaboration_style", cl')] = some cl' from rfl]
    simp only [Option.getD_some]
    ring
  refine ⟨hgen t c i cl, ?_, by norm_num, by norm_num, ?_⟩
  · rw [hgen 80 60 90 50]
    norm_num
  · unfold Scoring.determine_recommendation Scoring.score_threshold_level
      Scoring.has_critical_risk Scoring.high_risk_count
    norm_num

/-- C10: the confidence level is `(a + dataCompleteness) / 2` for a
stepwise activity confidence `a ∈ {0.2, 0.4, 0.6, 0.8, 1.0}`; for
completeness in [0,1] it lies in [0.1, 1], and a candidate with zero
activities and zero completeness gets confidence 0.1, never 0. -/
theorem confidence_level_spec (n : ℕ) (d : ℚ) (h0 : 0 ≤ d) (h1 : d ≤ 1) :
    (∃ a : ℚ, (a = 0.2 ∨ a = 0.4 ∨ a = 0.6 ∨ a = 0.8 ∨ a = 1.0) ∧
      Scoring.calculate_confidence_level n d = (a + d) / 2) ∧
    0.1 ≤ Scoring.calculate_confidence_level n d ∧
    Scoring.calculate_confidence_level n d ≤ 1 ∧
    Scoring.calculate_confidence_level 0 0 = 0.1 := by
  have heval : Scoring.calculate_confidence_level 0 0 = 0.1 := by
    unfold Scoring.calculate_confidence_level
    norm_num
  have key : ∃ a : ℚ, (a = 0.2 ∨ a = 0.4 ∨ a = 0.6 ∨ a = 0.8 ∨ a = 1.0) ∧
      Scoring.calculate_confidence_level n d = (a + d) / 2 := by
    unfold Scoring.calculate_confidence_level
    split_ifs
    · exact ⟨1.0, by norm_num, rfl⟩
    · exact ⟨0.8, by norm_num, rfl⟩
    · exact ⟨0.6, by norm_num, rfl⟩
    · exact ⟨0.4, by norm_num, rfl⟩
    · exact ⟨0.2, by norm_num, rfl⟩
  obtain ⟨a, ha, heq⟩ := key
  have hbounds : 0.1 ≤ Scoring.calculate_confidence_level n d ∧
      Scoring.calculate_confidence_level n d ≤ 1 := by
    rw [heq]
    rcases ha with rfl | rfl | rfl | rfl | rfl <;>
      constructor <;> norm_num <;> linarith
  exact ⟨⟨a, ha, heq⟩, hbounds.1, hbounds.2, heval⟩

/-- Witness for C10 at the zero candidate: activity count 0 and
completeness 0 give confidence at least 0.1 (and exactly 0.1). -/
theorem confidence_level_spec_witness :
    0.1 ≤ Scoring.calculate_confidence_level 0 0 ∧
    Scoring.calculate_confidence_level 0 0 = 0.1 :=
  ⟨(confidence_level_spec 0 0 (by norm_num) (by norm_num)).2.1,
   (confidence_level_spec 0 0 (by norm_num) (by norm_num)).2.2.2⟩

namespace Scoring

/-- One-tier downgrade in the spec's recommendation order (Strongly
Recommended > Recommended > Conditional > Not Recommended); stated
from the spec's wording for comparison with the implementation. -/
def one_tier_down : RecommendationLevel → RecommendationLevel
  | .stronglyRecommended => .recommended
  | .recommended => .conditional
  | .conditional => .notRecommended
  | r => r

lemma has_critical_risk_iff (risks : List RiskFactor) :
    has_critical_risk risks = true ↔ ∃ r ∈ risks, r.severity = .critical := by
  simp [has_critical_risk, List.any_eq_true, beq_iff_eq]

lemma has_critical_risk_eq_false (risks : List RiskFactor)
    (h : ∀ r ∈ risks, r.severity ≠ .critical) :
    has_critical_risk risks = false := by
  rw [Bool.eq_false_iff]
  intro hc
  obtain ⟨r, hr, hcrit⟩ := (has_critical_risk_iff risks).1 hc
  exact h r hr hcrit

end Scoring

/-- C3 counterexample: with an overall score of 50 the thresholded
recommendation is Conditional; three High risks leave the final
recommendation at Conditional, although a one-tier downgrade of
Conditional would be Not Recommended — the downgrade rule does not
apply below the top two tiers. -/
theorem determine_recommendation_downgrade_cex :
    Scoring.score_threshold_level 50 = .conditional ∧
    Scoring.has_critical_risk
      [⟨.high, 0.8⟩, ⟨.high, 0.8⟩, ⟨.high, 0.7⟩] = false ∧
    3 ≤ Scoring.high_risk_count
      [⟨.high, 0.8⟩, ⟨.high, 0.8⟩, ⟨.high, 0.7⟩] ∧
    Scoring.determine_recommendation 50
      [⟨.high, 0.8⟩, ⟨.high, 0.8⟩, ⟨.high, 0.7⟩] = .conditional ∧
    Scoring.determine_recommendation 50
      [⟨.high, 0.8⟩, ⟨.high, 0.8⟩, ⟨.high, 0.7⟩] ≠
      Scoring.one_tier_down (Scoring.score_threshold_level 50) := by
  refine ⟨by decide, by decide, by decide, by decide, by decide⟩

/-- C3 (amended): any Critical risk forces Not Recommended; with
fewer than three High risks the recommendation is the thresholded
level (`>=80` Strongly Recommended, `>=65` Recommended, `>=45`
Conditional, else Not Recommended); with three or more High risks the
thresholded level is downgraded by one tier from Strongly Recommended
or Recommended only — Conditional and Not Recommended are left
unchanged. -/
theorem determine_recommendation_spec (overall : ℚ) (risks : List Scoring.RiskFactor) :
    ((∃ r ∈ risks, r.severity = .critical) →
      Scoring.determine_recommendation overall risks = .notRecommended) ∧
    ((∀ r ∈ risks, r.severity ≠ .critical) →
      ((80 ≤ overall → Scoring.score_threshold_level overall = .stronglyRecommended) ∧
       (65 ≤ overall → overall < 80 →
         Scoring.score_threshold_level overall = .recommended) ∧
       (45 ≤ overall → overall < 65 →
         Scoring.score_threshold_level overall = .conditional) ∧
       (overall < 45 → Scoring.score_threshold_level overall = .notRecommended)) ∧
      (Scoring.high_risk_count risks < 3 →
        Scoring.determine_recommendation overall risks =
          Scoring.score_threshold_level overall) ∧
      (3 ≤ Scoring.high_risk_count risks →
        ((80 ≤ overall →
           Scoring.determine_recommendation overall risks = .recommended) ∧
         (65 ≤ overall → overall < 80 →
           Scoring.determine_recommendation overall risks = .conditional) ∧
         (45 ≤ overall → overall < 65 →
           Scoring.determine_recommendation overall risks = .conditional) ∧
         (overall < 45 →
           Scoring.determine_recommendation overall risks = .notRecommended)))) := by
  constructor
  · intro hex
    have hc : Scoring.has_critical_risk risks = true :=
      (Scoring.has_critical_risk_iff risks).2 hex
    unfold Scoring.determine_recommendation
    rw [hc]
    simp
  · intro hnone
    have hc : Scoring.has_critical_risk risks = false :=
      Scoring.has_critical_risk_eq_false risks hnone
    have hthr : (80 ≤ overall → Scoring.score_threshold_level overall = .stronglyRecommended) ∧
        (65 ≤ overall → overall < 80 →
          Scoring.score_threshold_level overall = .recommended) ∧
        (45 ≤ overall → overall < 65 →
          Scoring.score_threshold_level overall = .conditional) ∧
        (overall < 45 → Scoring.score_threshold_level overall = .notRecommended) := by
      unfold Scoring.score_threshold_level
      refine ⟨fun h => by rw [if_pos h], fun h h' => ?_, fun h h' => ?_, fun h => ?_⟩
      · rw [if_neg (by linarith), if_pos h]
      · rw [if_neg (by linarith), if_neg (by linarith), if_pos h]
      · rw [if_neg (by linarith), if_neg (by linarith), if_neg (by linarith)]
    refine ⟨hthr, ?_, ?_⟩
    · intro hlt
      unfold Scoring.determine_recommendation
      rw [hc]
      simp only [Bool.false_eq_true, if_false]
      rw [if_neg (by omega)]
    · intro hge
      have hd : Scoring.determine_recommendation overall risks =
          match Scoring.score_threshold_level overall with
          | .stronglyRecommended => .recommended
          | .recommended => .conditional
          | _ => Scoring.score_threshold_level overall := by
        unfold Scoring.determine_recommendation
        rw [hc]
        simp only [Bool.false_eq_true, if_false]
        rw [if_pos hge]
      refine ⟨fun h => ?_, fun h h' => ?_, fun h h' => ?_, fun h => ?_⟩
      · rw [hd, hthr.1 h]
      · rw [hd, hthr.2.1 h h']
      · rw [hd, hthr.2.2.1 h h']
      · rw [hd, hthr.2.2.2 h]

/-- Witness for C3 at concrete inputs: a single Critical risk forces
Not Recommended at score 90; three High risks turn a score of 85 into
Recommended; with no risks a score of 85 stays Strongly
Recommended. -/
theorem determine_recommendation_spec_witness :
    Scoring.determine_recommendation 90 [⟨.critical, 0.9⟩] = .notRecommended ∧
    Scoring.determine_recommendation 85
      [⟨.high, 0.8⟩, ⟨.high, 0.8⟩, ⟨.high, 0.7⟩] = .recommended ∧
    Scoring.determine_recommendation 85 [] = .stronglyRecommended :=
  ⟨(determine_recommendation_spec 90 [⟨.critical, 0.9⟩]).1
      ⟨⟨.critical, 0.9⟩, List.mem_singleton.2 rfl, rfl⟩,
   (((determine_recommendation_spec 85
        [⟨.high, 0.8⟩, ⟨.high, 0.8⟩, ⟨.high, 0.7⟩]).2 (by decide)).2.2
      (by decide)).1 (by norm_num),
   by
    have h := (((determine_recommendation_spec 85 []).2 (by decide)).2.1 (by decide))
    have h2 := ((determine_recommendation_spec 85 []).2 (by decide)).1.1 (by norm_num)
    rw [h, h2]⟩

/-- C4 counterexample: for a candidate with zero activities (and all
activity lists empty, hence zero data of any kind) the review pipeline
raises (`ValueError`, modelled as `Except.error`) instead of returning
an assessment with recommendation Insufficient Data. -/
theorem review_zero_activities_raises :
    Scoring.generate_comprehensive_review
      ⟨0, false, false, false, false, false⟩
      ⟨0, 0, 0, 0⟩ ⟨0, 0, 0, 0⟩ ⟨0, 0, 0, 0⟩ ⟨0, .unknown, 0, 0, 0⟩ =
      Except.error "No GitHub activity found" := rfl

/-- C4 (amended): when `total_activities = 0`,
`generate_comprehensive_review` raises `ValueError` instead of
producing a result, and the scoring engine can never output the
Insufficient Data recommendation — `determine_recommendation` returns
one of the four score-derived levels only (Insufficient Data exists
solely as the dataclass default that the pipeline always
overwrites). -/
theorem review_zero_activities_spec (a : Scoring.ActivityData)
    (tech : Scoring.TechnicalProficiencyMetrics)
    (craft : Scoring.EngineeringCraftsmanshipMetrics)
    (initiative : Scoring.InitiativeOwnershipMetrics)
    (collab : Scoring.CollaborationStyleMetrics) :
    (a.totalActivities = 0 →
      Scoring.generate_comprehensive_review a tech craft initiative collab =
        Except.error "No GitHub activity found") ∧
    (∀ (overall : ℚ) (risks : List Scoring.RiskFactor),
      Scoring.determine_recommendation overall risks ≠ .insufficientData) := by
  constructor
  · intro h
    unfold Scoring.generate_comprehensive_review
    rw [if_pos h]
  · intro overall risks
    unfold Scoring.determine_recommendation Scoring.score_threshold_level
    split_ifs <;> simp

/-- Witness for C4: the concrete zero-activity candidate raises, and
no recommendation for score 0 with no risks is Insufficient Data. -/
theorem review_zero_activities_spec_witness :
    Scoring.generate_comprehensive_review
      ⟨0, false, false, false, false, false⟩
      ⟨0, 0, 0, 0⟩ ⟨0, 0, 0, 0⟩ ⟨0, 0, 0, 0⟩ ⟨0, .unknown, 0, 0, 0⟩ =
      Except.error "No GitHub activity found" ∧
    Scoring.determine_recommendation 0 [] ≠ .insufficientData :=
  ⟨(review_zero_activities_spec ⟨0, false, false, false, false, false⟩
      ⟨0, 0, 0, 0⟩ ⟨0, 0, 0, 0⟩ ⟨0, 0, 0, 0⟩ ⟨0, .unknown, 0, 0, 0⟩).1 rfl,
   (review_zero_activities_spec ⟨0, false, false, false, false, false⟩
      ⟨0, 0, 0, 0⟩ ⟨0, 0, 0, 0⟩ ⟨0, 0, 0, 0⟩ ⟨0, .unknown, 0, 0, 0⟩).2 0 []⟩

namespace Scoring

lemma tech_ai_component_bounds (n : ℕ) :
    0 ≤ tech_ai_component n ∧ tech_ai_component n ≤ 40 := by
  unfold tech_ai_component
  split_ifs <;> norm_num

lemma tech_perf_component_bounds (n : ℕ) :
    0 ≤ tech_perf_component n ∧ tech_perf_component n ≤ 25 := by
  unfold tech_perf_component
  split_ifs <;> norm_num

lemma tech_fullstack_component_bounds (n : ℕ) :
    0 ≤ tech_fullstack_component n ∧ tech_fullstack_component n ≤ 20 := by
  unfold tech_fullstack_component
  split_ifs <;> norm_num

lemma initiative_cycles_component_bounds (n : ℕ) :
    0 ≤ initiative_cycles_component n ∧ initiative_cycles_component n ≤ 40 := by
  unfold initiative_cycles_component
  split_ifs <;> norm_num

lemma initiative_responder_component_bounds (n : ℕ) :
    0 ≤ initiative_responder_component n ∧ initiative_responder_component n ≤ 20 := by
  unfold initiative_responder_component
  split_ifs <;> norm_num

lemma initiative_oss_component_bounds (n : ℕ) :
    0 ≤ initiative_oss_component n ∧ initiative_oss_component n ≤ 20 := by
  unfold initiative_oss_component
  split_ifs <;> norm_num

lemma collab_pattern_bonus_bounds (p : WorkRhythmPattern) :
    0 ≤ collab_pattern_bonus p ∧ collab_pattern_bonus p ≤ 10 := by
  cases p <;> exact ⟨by decide, by decide⟩

end Scoring

/-- C5: with the category sub-metrics in their declared ranges (the
ratio-valued metrics pre-normalized to [0,1]), each of the four
category scorers returns the sum of its weighted sub-score components
and that sum lies in [0,100] — no category, including collaboration
style (whose components 30 + 10 + 25 + 20 + 15 total exactly 100),
can report a score above 100. -/
theorem category_scores_bounded
    (tm : Scoring.TechnicalProficiencyMetrics)
    (cm : Scoring.EngineeringCraftsmanshipMetrics)
    (im : Scoring.InitiativeOwnershipMetrics)
    (om : Scoring.CollaborationStyleMetrics)
    (h1 : 0 ≤ tm.dependencySophisticationScore)
    (h2 : tm.dependencySophisticationScore ≤ 1)
    (h3 : 0 ≤ cm.commitIssueLinkingRatio) (h4 : cm.commitIssueLinkingRatio ≤ 1)
    (h5 : 0 ≤ cm.testingCommitmentRatio) (h6 : cm.testingCommitmentRatio ≤ 1)
    (h7 : 0 ≤ cm.structuredWorkflowScore) (h8 : cm.structuredWorkflowScore ≤ 1)
    (h9 : 0 ≤ cm.codeReviewThoroughness) (h10 : cm.codeReviewThoroughness ≤ 1)
    (h11 : 0 ≤ im.personalProjectQuality) (h12 : im.personalProjectQuality ≤ 1)
    (h13 : 0 ≤ om.temporalDedicationScore) (h14 : om.temporalDedicationScore ≤ 1)
    (h15 : 0 ≤ om.feedbackReceptivenessScore) (h16 : om.feedbackReceptivenessScore ≤ 1)
    (h17 : 0 ≤ om.communicationClarityScore) (h18 : om.communicationClarityScore ≤ 1) :
    (0 ≤ Scoring.score_technical_proficiency tm ∧
      Scoring.score_technical_proficiency tm ≤ 100) ∧
    (0 ≤ Scoring.score_engineering_craftsmanship cm ∧
      Scoring.score_engineering_craftsmanship cm ≤ 100) ∧
    (0 ≤ Scoring.score_initiative_ownership im ∧
      Scoring.score_initiative_ownership im ≤ 100) ∧
    (0 ≤ Scoring.score_collaboration_style om ∧
      Scoring.score_collaboration_style om ≤ 100) := by
  obtain ⟨a1, a2⟩ := Scoring.tech_ai_component_bounds tm.aiMlFrameworksCount
  obtain ⟨b1, b2⟩ := Scoring.tech_perf_component_bounds tm.performanceLinesTotal
  obtain ⟨c1, c2⟩ := Scoring.tech_fullstack_component_bounds tm.fullStackEvidenceCount
  obtain ⟨d1, d2⟩ := Scoring.initiative_cycles_component_bounds im.selfDirectedWorkCycles
  obtain ⟨e1, e2⟩ := Scoring.initiative_responder_component_bounds im.firstResponderInstances
  obtain ⟨f1, f2⟩ := Scoring.initiative_oss_component_bounds im.openSourceContributions
  obtain ⟨g1, g2⟩ := Scoring.collab_pattern_bonus_bounds om.workRhythmPattern
  have hm : (0 : ℚ) ≤ (if 0 < om.mentorshipIndicatorsCount then (15 : ℚ) else 0) ∧
      (if 0 < om.mentorshipIndicatorsCount then (15 : ℚ) else 0) ≤ 15 := by
    split <;> norm_num
  unfold Scoring.score_technical_proficiency Scoring.score_engineering_craftsmanship
    Scoring.score_initiative_ownership Scoring.score_collaboration_style
  refine ⟨⟨?_, ?_⟩, ⟨?_, ?_⟩, ⟨?_, ?_⟩, ⟨?_, ?_⟩⟩ <;> linarith [hm.1, hm.2]

/-- Witness for C5 at maximal in-range inputs: every category reaches
a score within [0,100] (here each equals exactly 100). -/
theorem category_scores_bounded_witness :
    (0 ≤ Scoring.score_technical_proficiency ⟨6, 2500, 3, 1⟩ ∧
      Scoring.score_technical_proficiency ⟨6, 2500, 3, 1⟩ ≤ 100) ∧
    (0 ≤ Scoring.score_engineering_craftsmanship ⟨1, 1, 1, 1⟩ ∧
      Scoring.score_engineering_craftsmanship ⟨1, 1, 1, 1⟩ ≤ 100) ∧
    (0 ≤ Scoring.score_initiative_ownership ⟨12, 11, 1, 6⟩ ∧
      Scoring.score_initiative_ownership ⟨12, 11, 1, 6⟩ ≤ 100) ∧
    (0 ≤ Scoring.score_collaboration_style ⟨1, .weekendWarrior, 1, 1, 2⟩ ∧
      Scoring.score_collaboration_style ⟨1, .weekendWarrior, 1, 1, 2⟩ ≤ 100) :=
  category_scores_bounded ⟨6, 2500, 3, 1⟩ ⟨1, 1, 1, 1⟩ ⟨12, 11, 1, 6⟩
    ⟨1, .weekendWarrior, 1, 1, 2⟩
    (by norm_num) (by norm_num) (by norm_num) (by norm_num) (by norm_num)
    (by norm_num) (by norm_num) (by norm_num) (by norm_num) (by norm_num)
    (by norm_num) (by norm_num) (by norm_num) (by norm_num) (by norm_num)
    (by norm_num) (by norm_num) (by norm_num)

lemma string_lt_low_medium : ("Low" : String) < "Medium" := by
  rw [String.lt_iff_toList_lt]
  decide

lemma string_not_lt_medium_high : ¬ ("Medium" : String) < "High" := by
  rw [String.lt_iff_toList_lt]
  decide

lemma string_not_lt_low_high : ¬ ("Low" : String) < "High" := by
  rw [String.lt_iff_toList_lt]
  decide

lemma string_not_lt_medium_critical : ¬ ("Medium" : String) < "Critical" := by
  rw [String.lt_iff_toList_lt]
  decide

lemma string_not_lt_low_critical : ¬ ("Low" : String) < "Critical" := by
  rw [String.lt_iff_toList_lt]
  decide

lemma string_not_lt_high_critical : ¬ ("High" : String) < "Critical" := by
  rw [String.lt_iff_toList_lt]
  decide

lemma string_lt_critical_high : ("Critical" : String) < "High" := by
  rw [String.lt_iff_toList_lt]
  decide

lemma string_lt_high_low : ("High" : String) < "Low" := by
  rw [String.lt_iff_toList_lt]
  decide

namespace Scoring

lemma key_lt_low_medium (x y : ℚ) :
    risk_key_lt ⟨.low, x⟩ ⟨.medium, y⟩ = true := by
  simp only [risk_key_lt, RiskLevel.value]
  rw [decide_eq_true string_lt_low_medium]
  rfl

lemma key_not_lt_medium_high (x y : ℚ) :
    risk_key_lt ⟨.medium, x⟩ ⟨.high, y⟩ = false := by
  simp only [risk_key_lt, RiskLevel.value]
  rw [decide_eq_false string_not_lt_medium_high]
  rfl

lemma key_not_lt_low_high (x y : ℚ) :
    risk_key_lt ⟨.low, x⟩ ⟨.high, y⟩ = false := by
  simp only [risk_key_lt, RiskLevel.value]
  rw [decide_eq_false string_not_lt_low_high]
  rfl

lemma key_not_lt_medium_critical (x y : ℚ) :
    risk_key_lt ⟨.medium, x⟩ ⟨.critical, y⟩ = false := by
  simp only [risk_key_lt, RiskLevel.value]
  rw [decide_eq_false string_not_lt_medium_critical]
  rfl

lemma key_not_lt_low_critical (x y : ℚ) :
    risk_key_lt ⟨.low, x⟩ ⟨.critical, y⟩ = false := by
  simp only [risk_key_lt, RiskLevel.value]
  rw [decide_eq_false string_not_lt_low_critical]
  rfl

lemma key_not_lt_high_critical (x y : ℚ) :
    risk_key_lt ⟨.high, x⟩ ⟨.critical, y⟩ = false := by
  simp only [risk_key_lt, RiskLevel.value]
  rw [decide_eq_false string_not_lt_high_critical]
  rfl

end Scoring

/-- C6: the risk sort of `score_comprehensive_assessment` orders by
the enum's STRING `value` (descending), and lexicographically
"Critical" < "High" < "Low" < "Medium"; on one risk of each severity
the code therefore produces Medium, Low, High, Critical — not the
claimed Critical, High, Medium, Low — so the most severe risks sort
last, contradicting the intent of keeping the top of this list as
`critical_risks`. -/
theorem sort_risks_severity_string_order :
    ("Critical" : String) < "High" ∧ ("High" : String) < "Low" ∧
    ("Low" : String) < "Medium" ∧
    Scoring.sort_risks
      [⟨.critical, 0.9⟩, ⟨.high, 0.9⟩, ⟨.medium, 0.9⟩, ⟨.low, 0.9⟩] =
      [⟨.medium, 0.9⟩, ⟨.low, 0.9⟩, ⟨.high, 0.9⟩, ⟨.critical, 0.9⟩] := by
  refine ⟨string_lt_critical_high, string_lt_high_low, string_lt_low_medium, ?_⟩
  simp only [Scoring.sort_risks, Scoring.insertRiskDesc,
    Scoring.key_lt_low_medium, Scoring.key_not_lt_medium_high,
    Scoring.key_not_lt_low_high, Scoring.key_not_lt_medium_critical,
    Scoring.key_not_lt_low_critical, Scoring.key_not_lt_high_critical,
    if_true, if_false, Bool.false_eq_true]
